import Mathlib

/-!
# VaultRaider — credential & token lifecycle, resource cache: shallow embedding

Shallow embedding of the authentication / token subsystem and the Moka-based
resource cache of the VaultRaider repository (`src-tauri/src`), together with
proofs of the specification claims about them.

Conventions of the embedding:
* time is `Nat` (seconds); the current instant `now` is passed explicitly;
* network I/O is modelled by passing the provider's response(s) as explicit
  arguments (a single response for one-shot exchanges, a list of responses
  for the device-code polling loop);
* Rust `Result<T, E>` becomes `Except E T`; `Option<T>` becomes `Option T`;
* the `HashMap<String, AccessToken>` of cached tokens and the Moka caches
  become association lists with explicit insertion timestamps;
* sleeps performed by the polling loop are recorded as a list of durations,
  and POSTs to the token endpoint are counted, so that resource claims can
  be stated.
-/

/-! ## String helpers (models of the Rust `str` operations used) -/

/-- Boolean list-prefix test (model of byte-level prefix comparison). -/
def isPrefixB : List Char → List Char → Bool
  | [], _ => true
  | _ :: _, [] => false
  | a :: as, b :: bs => a = b && isPrefixB as bs

/-- Boolean infix (substring occurrence) test on character lists. -/
def isInfixB (pat : List Char) : List Char → Bool
  | [] => isPrefixB pat []
  | b :: bs => isPrefixB pat (b :: bs) || isInfixB pat bs

/-- Model of Rust `str::contains(pat)`. -/
def strContains (s pat : String) : Bool :=
  isInfixB pat.data s.data

/-- Model of Rust `str::ends_with(pat)`. -/
def strEndsWith (s pat : String) : Bool :=
  isPrefixB pat.data.reverse s.data.reverse

/-- Drop the last `n` characters of a string. -/
def strDropRight (s : String) (n : Nat) : String :=
  String.mk (s.data.take (s.data.length - n))

/-- One step of suffix trimming, fuel-bounded: remove the suffix `pat`
repeatedly as long as it is present (model of Rust
`str::trim_end_matches(pat)`, which removes ALL trailing occurrences). -/
def trimEndAux (pat : String) : Nat → String → String
  | 0, s => s
  | n + 1, s =>
    if pat ≠ "" ∧ strEndsWith s pat then
      trimEndAux pat n (strDropRight s pat.data.length)
    else s

/-- Model of Rust `str::trim_end_matches(pat)`: repeatedly removes the
suffix `pat`. The fuel `s.data.length` suffices because every removal of a
nonempty suffix strictly shrinks the string. -/
def trimEndMatches (s pat : String) : String :=
  trimEndAux pat s.data.length s

/-- Containment of `pat` in `s` as a proposition: `s` decomposes as
`l ++ pat ++ r` at the character level. -/
def StrContainsP (s pat : String) : Prop :=
  ∃ l r, s.data = l ++ pat.data ++ r

/-! ## Configuration constants (`src-tauri/src/config.rs`) -/

/-- Maximum number of polling attempts for device code flow. -/
def MAX_POLL_ATTEMPTS : Nat := 60

/-- Seconds to wait between poll attempts when rate limited. -/
def POLL_SLOWDOWN_SECONDS : Nat := 5

/-- Auth scopes requested by the interactive login. -/
def AUTH_SCOPES : String :=
  "https://management.azure.com/.default offline_access openid profile"

/-- Azure Resource Management API scope (`provider.rs`). -/
def MANAGEMENT_SCOPE : String := "https://management.azure.com/.default"

/-- Azure Key Vault data plane API scope (`provider.rs`). -/
def KEYVAULT_SCOPE : String := "https://vault.azure.net/.default"

/-! ## Token data model -/

/-- `azure_core` `AccessToken`: an opaque secret plus an absolute expiry
instant (`expires_on`, seconds). -/
structure AccessToken where
  secret : String
  expires_on : Nat
deriving Repr, DecidableEq

/-- Response body of the Azure token endpoint (`types.rs` `TokenResponse`). -/
structure TokenResponse where
  access_token : String
  expires_in : Option Nat
  refresh_token : Option String
deriving Repr, DecidableEq

/-- Device-code flow state stored in `DEVICE_CODE_STATE`
(`types.rs` `DeviceCodeState`). -/
structure DeviceCodeState where
  device_code : String
  interval : Nat
deriving Repr, DecidableEq

/-- Association-list insert-or-replace (model of `HashMap::insert`). -/
def assocInsert (m : List (String × AccessToken)) (k : String) (v : AccessToken) :
    List (String × AccessToken) :=
  match m with
  | [] => [(k, v)]
  | (k0, v0) :: rest =>
    if k0 = k then (k, v) :: rest else (k0, v0) :: assocInsert rest k v

/-- Association-list lookup (model of `HashMap::get`). -/
def assocGet (m : List (String × AccessToken)) (k : String) : Option AccessToken :=
  match m with
  | [] => none
  | (k0, v0) :: rest => if k0 = k then some v0 else assocGet rest k

/-- Mutable state owned by `InteractiveDeviceCodeCredential`
(`interactive.rs`): per-scope cached access tokens and the optional
refresh token. -/
structure CredState where
  cached_tokens : List (String × AccessToken)
  refresh_token : Option String
deriving Repr, DecidableEq

/-! ## Scope conversion (`interactive.rs::get_token_with_refresh`, lines 61-68)

```rust
let resource_scope = if scope.ends_with("/.default") {
    let base = scope.trim_end_matches("/.default");
    format!("{}/user_impersonation", base)
} else {
    scope.to_string()
};
```
-/

/-- The scope transformation applied before the refresh-token exchange,
exactly as the source computes it (note that `trim_end_matches` removes
ALL trailing occurrences of `"/.default"`). -/
def convertScope (scope : String) : String :=
  if strEndsWith scope "/.default" then
    trimEndMatches scope "/.default" ++ "/user_impersonation"
  else
    scope

/-- Modelled from the spec sentence for claim comparison only: the scope
with (one) trailing `"/.default"` replaced by `"/user_impersonation"`;
everything else unchanged. -/
def specConvertScope (scope : String) : String :=
  if strEndsWith scope "/.default" then
    strDropRight scope ("/.default".data.length) ++ "/user_impersonation"
  else
    scope

deriving instance DecidableEq for Except

/-! ## Refresh-token exchange (`interactive.rs::get_token_with_refresh`) -/

/-- Outcome of the single POST performed by the refresh-token exchange:
either a parsed success body, or the error body text of a non-success
HTTP response. -/
inductive RefreshResponse where
  | ok (body : TokenResponse)
  | errBody (text : String)
deriving Repr, DecidableEq

/-- Result of the refresh exchange: the returned token or error, the
credential state afterwards, and the scope string actually sent to the
provider (`none` when no POST was performed). -/
structure RefreshResult where
  result : Except String AccessToken
  state : CredState
  sentScope : Option String
deriving Repr, DecidableEq

/-- Embedding of `InteractiveDeviceCodeCredential::get_token_with_refresh`
(`interactive.rs` lines 48-135): requires a refresh token, converts the
scope, POSTs the refresh grant (response passed in as `resp`), on success
opportunistically replaces the refresh token, stamps the new token
`now + expires_in` (default 3600) and caches it under the ORIGINAL scope;
on failure produces the personal-account guidance when the body matches
`AADSTS70011` together with `management.azure.com` or `does not exist`,
otherwise a generic failure message. -/
def get_token_with_refresh (st : CredState) (now : Nat) (scope : String)
    (resp : RefreshResponse) : RefreshResult :=
  match st.refresh_token with
  | none =>
    ⟨.error "No refresh token available - please re-authenticate", st, none⟩
  | some _rt =>
    let resource_scope := convertScope scope
    match resp with
    | .ok body =>
      let st1 : CredState :=
        match body.refresh_token with
        | some nrt => { st with refresh_token := some nrt }
        | none => st
      let expires_in := body.expires_in.getD 3600
      let access_token : AccessToken := ⟨body.access_token, now + expires_in⟩
      let st2 : CredState :=
        { st1 with cached_tokens := assocInsert st1.cached_tokens scope access_token }
      ⟨.ok access_token, st2, some resource_scope⟩
    | .errBody error_text =>
      if strContains error_text "AADSTS70011" &&
         (strContains error_text "management.azure.com" ||
          strContains error_text "does not exist") then
        ⟨.error ("Personal Microsoft accounts cannot access Azure Resource Manager API directly.\n\nTo access Azure resources with your personal account, you have two options:\n1. Use Azure CLI authentication instead (run \x27az login\x27 then restart VaultRaider)\n2. Ask an Azure AD administrator to add your account as a guest user to their tenant\n\nError details: " ++ error_text),
         st, some resource_scope⟩
      else
        ⟨.error ("Failed to get token for scope " ++ scope ++ ": " ++ error_text),
         st, some resource_scope⟩

/-! ## Device-code polling loop (`interactive.rs::get_token`, lines 184-252) -/

/-- One response of the token endpoint to a device-code grant POST:
a parsed success body, or an OAuth error code extracted from the error
body (`error_json["error"]`, empty string when absent). -/
inductive PollResponse where
  | success (body : TokenResponse)
  | failure (error_code : String)
deriving Repr, DecidableEq

/-- Terminal outcome of the polling loop. `outOfResponses` is a model
artifact: the supplied response stream was exhausted while the source loop
would have POSTed again. -/
inductive PollOutcome where
  | tok (t : AccessToken)
  | err (msg : String)
  | outOfResponses
deriving Repr, DecidableEq

/-- Trace of one run of the polling loop: outcome, credential state
afterwards, the sleeps performed (durations, in order), and the number of
POSTs made to the token endpoint. -/
structure PollResult where
  outcome : PollOutcome
  state : CredState
  sleeps : List Nat
  posts : Nat
deriving Repr, DecidableEq

/-- Embedding of the initial device-code exchange loop of
`InteractiveDeviceCodeCredential::get_token`: at each iteration, if
`attempts >= MAX_POLL_ATTEMPTS` return the timeout error WITHOUT posting;
otherwise POST (consume one response): on success store the refresh token
if present, stamp the token `now + expires_in` (default 3600), cache it
under `AUTH_SCOPES` and return it; on `authorization_pending` increment
`attempts` and sleep `interval`; on `slow_down` sleep
`interval + POLL_SLOWDOWN_SECONDS` WITHOUT incrementing `attempts`; on any
other code abort with that code. -/
def pollLoop (interval now : Nat) (st : CredState) :
    Nat → List PollResponse → PollResult
  | attempts, responses =>
    if MAX_POLL_ATTEMPTS ≤ attempts then
      ⟨.err "Authentication timed out", st, [], 0⟩
    else
      match responses with
      | [] => ⟨.outOfResponses, st, [], 0⟩
      | .success body :: _rest =>
        let st1 : CredState :=
          match body.refresh_token with
          | some rt => { st with refresh_token := some rt }
          | none => st
        let expires_in := body.expires_in.getD 3600
        let access_token : AccessToken := ⟨body.access_token, now + expires_in⟩
        let st2 : CredState :=
          { st1 with cached_tokens := assocInsert st1.cached_tokens AUTH_SCOPES access_token }
        ⟨.tok access_token, st2, [], 1⟩
      | .failure error_code :: rest =>
        if error_code = "authorization_pending" then
          let r := pollLoop interval now st (attempts + 1) rest
          ⟨r.outcome, r.state, interval :: r.sleeps, r.posts + 1⟩
        else if error_code = "slow_down" then
          let r := pollLoop interval now st attempts rest
          ⟨r.outcome, r.state, (interval + POLL_SLOWDOWN_SECONDS) :: r.sleeps, r.posts + 1⟩
        else
          ⟨.err ("Authentication failed: " ++ error_code), st, [], 1⟩

/-! ## `InteractiveDeviceCodeCredential::get_token` (`interactive.rs` 139-253) -/

/-- Trace of one `get_token` call. -/
structure GetTokenResult where
  result : Except String AccessToken
  state : CredState
  sleeps : List Nat
  posts : Nat
deriving Repr, DecidableEq

/-- Cache-miss continuation of `get_token`: use the refresh token when one
is held (one POST), otherwise run the initial device-code exchange loop
against the stored device-code session (error when none). -/
def getTokenMiss (st : CredState) (deviceState : Option DeviceCodeState)
    (now : Nat) (refreshResp : RefreshResponse)
    (pollResponses : List PollResponse) (scope : String) : GetTokenResult :=
  match st.refresh_token with
  | some _ =>
    let r := get_token_with_refresh st now scope refreshResp
    ⟨r.result, r.state, [], 1⟩
  | none =>
    match deviceState with
    | none =>
      ⟨.error "No device code state found - please start authentication first",
       st, [], 0⟩
    | some ds =>
      let r := pollLoop ds.interval now st 0 pollResponses
      ⟨match r.outcome with
        | .tok t => .ok t
        | .err m => .error m
        | .outOfResponses => .error "model: response stream exhausted",
       r.state, r.sleeps, r.posts⟩

/-- Embedding of `InteractiveDeviceCodeCredential::get_token` for a single
scope: return a cached token for the scope when one is present and
`expires_on > now`; otherwise fall through to the refresh exchange or the
initial device-code loop. -/
def InteractiveDeviceCodeCredential.get_token (st : CredState)
    (deviceState : Option DeviceCodeState) (now : Nat)
    (refreshResp : RefreshResponse) (pollResponses : List PollResponse)
    (scope : String) : GetTokenResult :=
  match assocGet st.cached_tokens scope with
  | some token =>
    if now < token.expires_on then ⟨.ok token, st, [], 0⟩
    else getTokenMiss st deviceState now refreshResp pollResponses scope
  | none => getTokenMiss st deviceState now refreshResp pollResponses scope

/-! ## Global token provider (`provider.rs::GlobalTokenProvider`) -/

/-- Error taxonomy of the HTTP layer (`azure/http/error.rs`), restricted to
the variants the provider produces. -/
inductive AzureHttpError where
  | NotAuthenticated
  | TokenError (msg : String)
deriving Repr, DecidableEq

/-- Embedding of `GlobalTokenProvider::get_token_for_scope` (`provider.rs`
lines 173-191) backed by the device-code credential: fail with
`NotAuthenticated` when the global slot is empty, otherwise delegate to the
credential and expose only the secret string. -/
def GlobalTokenProvider.get_token_for_scope (credential : Option CredState)
    (deviceState : Option DeviceCodeState) (now : Nat)
    (refreshResp : RefreshResponse) (pollResponses : List PollResponse)
    (scope : String) : Except AzureHttpError String :=
  match credential with
  | none => .error .NotAuthenticated
  | some st =>
    match (InteractiveDeviceCodeCredential.get_token st deviceState now
            refreshResp pollResponses scope).result with
    | .ok token_response => .ok token_response.secret
    | .error e =>
      .error (.TokenError ("Failed to get token for scope " ++ scope ++ ": " ++ e))

/-! ## Credential selection chain (`azure/auth/service.rs::login`, lines 23-54) -/

/-- Result of an authentication attempt (`types.rs` `AuthResult`). -/
structure AuthResult where
  success : Bool
  message : String
  user_email : Option String
  user_name : Option String
deriving Repr, DecidableEq

/-- Embedding of `login`: try the Azure CLI method; only on its failure try
the Service-Principal method; when both fail, combine both failure reasons
with the user guidance. The CLI and Service-Principal attempts are modelled
by their outcomes; the second component of the result records whether the
Service-Principal method was attempted. -/
def login (cliResult spResult : Except String AuthResult) :
    Except String AuthResult × Bool :=
  match cliResult with
  | .ok result => (.ok result, false)
  | .error cli_error =>
    match spResult with
    | .ok result => (.ok result, true)
    | .error env_error =>
      (.error ("All authentication methods failed.\n\nAzure CLI: " ++ cli_error ++
               "\n\nService Principal: " ++ env_error ++
               "\n\nPlease either:\n1. Run \x27az login\x27 in your terminal, or\n2. Set AZURE_CLIENT_SECRET environment variable for Service Principal auth"),
       true)

/-! ## Resource cache (`cache/moka_cache.rs`)

Domain value types are modelled with the fields the cached operations
consult (`Subscription.subscription_id` for the by-id lookup); the
remaining payload fields are irrelevant to cache behaviour and carried as
opaque strings. -/

/-- Azure subscription (`subscription/types.rs`), reduced to the fields the
cache operations consult. -/
structure Subscription where
  id : String
  subscription_id : String
  display_name : String
deriving Repr, DecidableEq

/-- Azure resource group (opaque payload). -/
structure ResourceGroup where
  id : String
deriving Repr, DecidableEq

/-- Azure Key Vault (opaque payload). -/
structure KeyVault where
  id : String
deriving Repr, DecidableEq

/-- Key Vault secret list item (opaque payload). -/
structure Secret where
  id : String
deriving Repr, DecidableEq

/-- Key Vault secret bundle (opaque payload). -/
structure SecretBundle where
  id : String
  value : String
deriving Repr, DecidableEq

/-- One Moka cache: a TTL (seconds) and entries `key ↦ (value, insertedAt)`.
Moka's `time_to_live(ttl)` makes an entry inserted at `t` visible to `get`
exactly while `now < t + ttl`. -/
structure MokaCache (α : Type) where
  ttl : Nat
  entries : List (String × α × Nat)
deriving Repr

/-- Lookup in the timestamped entry list. -/
def entFind {α : Type} : List (String × α × Nat) → String → Option (α × Nat)
  | [], _ => none
  | (k0, v, t) :: rest, k => if k0 = k then some (v, t) else entFind rest k

/-- Insert-or-replace in the timestamped entry list. -/
def entInsert {α : Type} (l : List (String × α × Nat)) (k : String) (v : α)
    (t : Nat) : List (String × α × Nat) :=
  match l with
  | [] => [(k, v, t)]
  | (k0, v0, t0) :: rest =>
    if k0 = k then (k, v, t) :: rest else (k0, v0, t0) :: entInsert rest k v t

/-- Remove a key from the timestamped entry list. -/
def entRemove {α : Type} (l : List (String × α × Nat)) (k : String) :
    List (String × α × Nat) :=
  match l with
  | [] => []
  | (k0, v0, t0) :: rest =>
    if k0 = k then rest else (k0, v0, t0) :: entRemove rest k

/-- Model of `moka::future::Cache::get`: the value, when present and not
yet expired. -/
def MokaCache.get {α : Type} (c : MokaCache α) (now : Nat) (k : String) :
    Option α :=
  match entFind c.entries k with
  | some (v, t) => if now < t + c.ttl then some v else none
  | none => none

/-- Model of `moka::future::Cache::insert`. -/
def MokaCache.insert {α : Type} (c : MokaCache α) (now : Nat) (k : String)
    (v : α) : MokaCache α :=
  { c with entries := entInsert c.entries k v now }

/-- Model of `moka::future::Cache::invalidate`. -/
def MokaCache.invalidate {α : Type} (c : MokaCache α) (k : String) :
    MokaCache α :=
  { c with entries := entRemove c.entries k }

/-- Model of `moka::future::Cache::invalidate_all`. -/
def MokaCache.invalidateAll {α : Type} (c : MokaCache α) : MokaCache α :=
  { c with entries := [] }

/-- Default TTLs of `AzureCache::new` (`moka_cache.rs` lines 21-34). -/
def SUBSCRIPTION_TTL_SECS : Nat := 600
def RESOURCE_GROUP_TTL_SECS : Nat := 300
def KEYVAULT_TTL_SECS : Nat := 300
def SECRETS_LIST_TTL_SECS : Nat := 180
def SECRET_VALUE_TTL_SECS : Nat := 180

/-- The five cache categories of `AzureCache`. -/
structure AzureCache where
  subscriptions : MokaCache (List Subscription)
  resource_groups : MokaCache (List ResourceGroup)
  keyvaults : MokaCache (List KeyVault)
  secrets_list : MokaCache (List Secret)
  secret_values : MokaCache SecretBundle
deriving Repr

/-- `AzureCache::new`: empty caches with the default TTLs. -/
def AzureCache.new : AzureCache where
  subscriptions := ⟨SUBSCRIPTION_TTL_SECS, []⟩
  resource_groups := ⟨RESOURCE_GROUP_TTL_SECS, []⟩
  keyvaults := ⟨KEYVAULT_TTL_SECS, []⟩
  secrets_list := ⟨SECRETS_LIST_TTL_SECS, []⟩
  secret_values := ⟨SECRET_VALUE_TTL_SECS, []⟩

/-- `AzureCache::clear_all` (`moka_cache.rs` lines 569-576). -/
def AzureCache.clear_all (c : AzureCache) : AzureCache where
  subscriptions := c.subscriptions.invalidateAll
  resource_groups := c.resource_groups.invalidateAll
  keyvaults := c.keyvaults.invalidateAll
  secrets_list := c.secrets_list.invalidateAll
  secret_values := c.secret_values.invalidateAll

/-- `AzureCache::get_subscriptions_or_load` (`moka_cache.rs` 206-235):
return the cached list on a hit; on a miss run the loader (its outcome is
the `loader` argument), propagate its error without caching, and cache a
successful result under `"subscriptions"`. Third component: whether the
loader was invoked. -/
def AzureCache.get_subscriptions_or_load (c : AzureCache) (now : Nat)
    (loader : Except String (List Subscription)) :
    Except String (List Subscription) × AzureCache × Bool :=
  match c.subscriptions.get now "subscriptions" with
  | some cached => (.ok cached, c, false)
  | none =>
    match loader with
    | .error e => (.error e, c, true)
    | .ok subscriptions =>
      (.ok subscriptions,
       { c with subscriptions := c.subscriptions.insert now "subscriptions" subscriptions },
       true)

/-- `AzureCache::get_secrets_list_or_load` (`moka_cache.rs` 421-451);
same shape, keyed by the vault URI. -/
def AzureCache.get_secrets_list_or_load (c : AzureCache) (now : Nat)
    (vault_uri : String) (loader : Except String (List Secret)) :
    Except String (List Secret) × AzureCache × Bool :=
  match c.secrets_list.get now vault_uri with
  | some cached => (.ok cached, c, false)
  | none =>
    match loader with
    | .error e => (.error e, c, true)
    | .ok secrets =>
      (.ok secrets,
       { c with secrets_list := c.secrets_list.insert now vault_uri secrets },
       true)

/-- `AzureCache::secret_key` (`moka_cache.rs` 469-471). -/
def AzureCache.secret_key (vault_uri secret_name : String) : String :=
  vault_uri ++ "::" ++ secret_name

/-- `AzureCache::get_secret_value_or_load` (`moka_cache.rs` 491-525);
same shape, keyed by `vault_uri ++ "::" ++ secret_name`. -/
def AzureCache.get_secret_value_or_load (c : AzureCache) (now : Nat)
    (vault_uri secret_name : String) (loader : Except String SecretBundle) :
    Except String SecretBundle × AzureCache × Bool :=
  match c.secret_values.get now (AzureCache.secret_key vault_uri secret_name) with
  | some cached => (.ok cached, c, false)
  | none =>
    match loader with
    | .error e => (.error e, c, true)
    | .ok secret =>
      (.ok secret,
       { c with secret_values :=
          c.secret_values.insert now (AzureCache.secret_key vault_uri secret_name) secret },
       true)

/-- A computation that either returns a value or panics (model of a Rust
`unwrap()` failure aborting the task). -/
inductive PanicOr (α : Type) where
  | panicked
  | value (a : α)
deriving Repr, DecidableEq

/-- `AzureCache::get_subscription` (`moka_cache.rs` 143-153):
```rust
result.map(|v| {
    v.0.into_iter().find(|s| s.subscription_id == subscription_id).unwrap()
})
```
When the `"subscriptions"` entry is absent (or expired) the `map` is
skipped and `None` is returned; when the entry is present, the first
matching subscription is `unwrap()`ed — which PANICS if no element
matches. -/
def AzureCache.get_subscription (c : AzureCache) (now : Nat)
    (subscription_id : String) : PanicOr (Option Subscription) :=
  match c.subscriptions.get now "subscriptions" with
  | none => .value none
  | some v =>
    match v.find? (fun s => s.subscription_id == subscription_id) with
    | some s => .value (some s)
    | none => .panicked

/-- `AzureCache::get_subscription_or_load` (`moka_cache.rs` 156-192): the
cache-hit path goes through `get_subscription` (and hence can panic); on a
miss the loader runs, its error propagates uncached, and a success is
appended to the current `"subscriptions"` vector. -/
def AzureCache.get_subscription_or_load (c : AzureCache) (now : Nat)
    (subscription_id : String) (loader : Except String Subscription) :
    PanicOr (Except String Subscription × AzureCache × Bool) :=
  match AzureCache.get_subscription c now subscription_id with
  | .panicked => .panicked
  | .value (some cached) => .value (.ok cached, c, false)
  | .value none =>
    match loader with
    | .error e => .value (.error e, c, true)
    | .ok subscription =>
      let subscriptions := ((c.subscriptions.get now "subscriptions").getD []) ++ [subscription]
      .value (.ok subscription,
              { c with subscriptions := c.subscriptions.insert now "subscriptions" subscriptions },
              true)

/-! ## Application state and logout (`service.rs::logout`,
`commands/auth.rs::azure_logout`) -/

/-- The process-wide mutable state the claims mention: the Global
Credential Slot (`AUTH_CREDENTIAL`), the User Info Slot (`USER_INFO`) and
the Resource Cache singleton (`AZURE_CACHE`). -/
structure AppState where
  auth_credential : Option CredState
  user_info : Option (String × Option String)
  azure_cache : AzureCache
deriving Repr

/-- Embedding of `logout` (`service.rs` lines 69-77): set
`AUTH_CREDENTIAL` and `USER_INFO` to `None`. No other state is touched. -/
def logout (st : AppState) : AppState :=
  { st with auth_credential := none, user_info := none }

/-- Embedding of the `azure_logout` command (`commands/auth.rs` 61-66):
call `logout` and report success. -/
def azure_logout (st : AppState) : AppState × Except String String :=
  (logout st, .ok "Logged out successfully")

/-! ## User-info derivation (`azure/auth/token.rs::extract_user_info_from_token`,
`azure/auth/user_info.rs::store_user_info`) -/

/-- JWT claims the extractor reads (`types.rs` `TokenClaims`); every field
defaults to absent. -/
structure TokenClaims where
  upn : Option String
  email : Option String
  unique_name : Option String
  name : Option String
  preferred_username : Option String
deriving Repr, DecidableEq

/-- Model of Rust `str::split('.')`: split a character list at every dot,
keeping empty segments (`"".split('.')` yields one empty segment). -/
def splitDot : List Char → List (List Char)
  | [] => [[]]
  | ch :: rest =>
    let r := splitDot rest
    if ch = '.' then [] :: r
    else
      match r with
      | [] => [[ch]]
      | h :: t => (ch :: h) :: t

/-- Embedding of `extract_user_info_from_token` (`token.rs` lines 34-79).
The base64 engines (`URL_SAFE_NO_PAD` and the `STANDARD` fallback) and the
serde JSON claims parser are external library collaborators, passed in as
functions (`none` models their failure). Control flow follows the source:
not exactly three dot-separated parts → `Ok((None, None))`; both decodes of
the middle part fail → `Ok((None, None))`; claims fail to parse →
`Ok((None, None))`; otherwise the email is
`upn.or(email).or(unique_name).or(preferred_username)` with the claims
`name`. -/
def extract_user_info_from_token
    (decodeUrlSafeB64 decodeStdB64 : String → Option (List Nat))
    (parseClaims : List Nat → Option TokenClaims)
    (token : String) : Except String (Option String × Option String) :=
  let parts := (splitDot token.data).map String.mk
  if parts.length ≠ 3 then
    .ok (none, none)
  else
    let payload := parts.getD 1 ""
    let decoded :=
      match decodeUrlSafeB64 payload with
      | some d => some d
      | none => decodeStdB64 payload
    match decoded with
    | none => .ok (none, none)
    | some d =>
      match parseClaims d with
      | none => .ok (none, none)
      | some claims =>
        .ok (((claims.upn.or claims.email).or claims.unique_name).or
              claims.preferred_username,
             claims.name)

/-- Embedding of `store_user_info` (`user_info.rs` lines 14-27): the value
written into the User Info Slot. With at least one of email/name present,
the display email defaults to `"Personal Account"`; with neither, the
account-type placeholder pair is stored. -/
def store_user_info (email name : Option String) : String × Option String :=
  if email.isSome || name.isSome then
    (email.getD "Personal Account", name)
  else
    ("Microsoft Account", some "Personal Account")

/-! ## Theorems -/

/-- C4: if the CLI attempt of `login` fails with reason A and the
Service-Principal attempt fails with reason B, `login` returns an error
whose text contains A and B together with the guidance to run `az login`
or set the `AZURE_CLIENT_SECRET` environment variable; and whenever the
CLI attempt fails, the Service-Principal method is attempted (the CLI
failure never short-circuits the chain). -/
theorem C4_login_error_aggregation (A B : String) :
    (∀ spResult, (login (.error A) spResult).2 = true) ∧
    ∃ msg, (login (.error A) (.error B)).1 = .error msg ∧
      StrContainsP msg A ∧ StrContainsP msg B ∧
      StrContainsP msg "az login" ∧ StrContainsP msg "AZURE_CLIENT_SECRET" := by
  constructor
  · intro spResult
    cases spResult <;> rfl
  · refine ⟨_, rfl, ?_, ?_, ?_, ?_⟩
    · exact ⟨"All authentication methods failed.\n\nAzure CLI: ".data,
        ("\n\nService Principal: " ++ B ++
         "\n\nPlease either:\n1. Run \x27az login\x27 in your terminal, or\n2. Set AZURE_CLIENT_SECRET environment variable for Service Principal auth").data,
        by simp [String.data_append]⟩
    · exact ⟨("All authentication methods failed.\n\nAzure CLI: " ++ A ++
         "\n\nService Principal: ").data,
        "\n\nPlease either:\n1. Run \x27az login\x27 in your terminal, or\n2. Set AZURE_CLIENT_SECRET environment variable for Service Principal auth".data,
        by simp [String.data_append]⟩
    · exact ⟨("All authentication methods failed.\n\nAzure CLI: " ++ A ++
         "\n\nService Principal: " ++ B ++
         "\n\nPlease either:\n1. Run \x27").data,
        "\x27 in your terminal, or\n2. Set AZURE_CLIENT_SECRET environment variable for Service Principal auth".data,
        by simp [String.data_append]⟩
    · exact ⟨("All authentication methods failed.\n\nAzure CLI: " ++ A ++
         "\n\nService Principal: " ++ B ++
         "\n\nPlease either:\n1. Run \x27az login\x27 in your terminal, or\n2. Set ").data,
        " environment variable for Service Principal auth".data,
        by simp [String.data_append]⟩

/-- C7 counterexample: a concrete state in which the subscriptions
category of the Resource Cache holds an entry; after `azure_logout` the
entry is still present and retrievable, so logout does NOT perform a
full-clear across the cache categories. -/
theorem C7_cache_survives_logout_counterexample :
    ((azure_logout
        ⟨some ⟨[], none⟩, some ("user@example.com", none),
         { AzureCache.new with
            subscriptions :=
              ⟨SUBSCRIPTION_TTL_SECS,
               [("subscriptions", [⟨"/subscriptions/a", "a", "Sub A"⟩], 0)]⟩ }⟩).1.azure_cache.subscriptions.get
      0 "subscriptions" = some [⟨"/subscriptions/a", "a", "Sub A"⟩]) ∧
    ((azure_logout
        ⟨some ⟨[], none⟩, some ("user@example.com", none),
         { AzureCache.new with
            subscriptions :=
              ⟨SUBSCRIPTION_TTL_SECS,
               [("subscriptions", [⟨"/subscriptions/a", "a", "Sub A"⟩], 0)]⟩ }⟩).1.azure_cache.subscriptions.entries
      ≠ []) := by
  exact ⟨rfl, by decide⟩

/-- C7 amended: `logout` (and the `azure_logout` command) clears the
Global Credential Slot and the User Info Slot, and leaves every Resource
Cache category untouched — no cache wipe happens on logout (a full wipe
exists only as the separate `clear_cache` command). -/
theorem C7_logout_clears_slots_only (st : AppState) :
    (azure_logout st).1.auth_credential = none ∧
    (azure_logout st).1.user_info = none ∧
    (azure_logout st).1.azure_cache = st.azure_cache ∧
    (azure_logout st).2 = .ok "Logged out successfully" :=
  ⟨rfl, rfl, rfl, rfl⟩

/-- C10: evaluation of the code at the failing input. When the
`"subscriptions"` cache entry is present but contains no subscription with
the requested id, `AzureCache::get_subscription` does NOT return normally:
the `unwrap()` on the failed `find` panics, and the cache-hit path of
`get_subscription_or_load` panics with it — contradicting the safety claim
that the call always terminates normally with an `Option`. -/
theorem C10_get_subscription_panics :
    (AzureCache.get_subscription
      { AzureCache.new with
          subscriptions :=
            ⟨SUBSCRIPTION_TTL_SECS,
             [("subscriptions", [⟨"/subscriptions/a", "a", "Sub A"⟩], 0)]⟩ }
      0 "missing" = .panicked) ∧
    (AzureCache.get_subscription_or_load
      { AzureCache.new with
          subscriptions :=
            ⟨SUBSCRIPTION_TTL_SECS,
             [("subscriptions", [⟨"/subscriptions/a", "a", "Sub A"⟩], 0)]⟩ }
      0 "missing" (.ok ⟨"/subscriptions/missing", "missing", "Sub M"⟩)
      = .panicked) := by
  exact ⟨by decide, rfl⟩

/-! ### Helper lemmas -/

/-- Looking up the key just inserted yields the inserted token. -/
theorem assocGet_assocInsert_self (m : List (String × AccessToken))
    (k : String) (v : AccessToken) : assocGet (assocInsert m k v) k = some v := by
  induction m with
  | nil => simp [assocInsert, assocGet]
  | cons hd tl ih =>
    obtain ⟨k0, v0⟩ := hd
    by_cases h : k0 = k <;> simp [assocInsert, assocGet, h, ih]

/-- A boolean prefix cannot be longer than the list it prefixes. -/
theorem isPrefixB_length_le (p q : List Char) (h : isPrefixB p q = true) :
    p.length ≤ q.length := by
  induction p generalizing q with
  | nil => simp
  | cons a as ih =>
    cases q with
    | nil => simp [isPrefixB] at h
    | cons b bs =>
      simp only [isPrefixB, Bool.and_eq_true] at h
      simpa using ih bs h.2

/-- A string ending in `pat` is at least as long as `pat`. -/
theorem strEndsWith_length_le (s pat : String)
    (h : strEndsWith s pat = true) : pat.data.length ≤ s.data.length := by
  have := isPrefixB_length_le pat.data.reverse s.data.reverse h
  simpa using this

/-- Trimming stops immediately when the string no longer ends in `pat`. -/
theorem trimEndAux_stop (pat : String) (fuel : Nat) (s : String)
    (h : strEndsWith s pat = false) : trimEndAux pat fuel s = s := by
  cases fuel with
  | zero => rfl
  | succ n => simp [trimEndAux, h]

/-- When `s` ends in `"/.default"` exactly once (dropping it leaves no
further trailing occurrence), `trim_end_matches` removes exactly that one
suffix. -/
theorem trimEndMatches_single (s : String)
    (h1 : strEndsWith s "/.default" = true)
    (h2 : strEndsWith (strDropRight s "/.default".length) "/.default" = false) :
    trimEndMatches s "/.default" = strDropRight s "/.default".length := by
  have hlen : "/.default".data.length ≤ s.data.length := strEndsWith_length_le _ _ h1
  have hpos : 0 < s.data.length := by
    have : (0 : Nat) < "/.default".data.length := by decide
    omega
  obtain ⟨n, hn⟩ : ∃ n, s.data.length = n + 1 := ⟨s.data.length - 1, by omega⟩
  have hne : ("/.default" : String) ≠ "" := by decide
  unfold trimEndMatches
  rw [hn]
  have hL : ("/.default" : String).length = ("/.default" : String).data.length := rfl
  simp only [trimEndAux, hne, h1, ne_eq, not_false_iff, true_and, if_true]
  exact trimEndAux_stop _ _ _ (by simpa [hL] using h2)

/-- C8 counterexample: for the scope
`"https://vault.azure.net/.default/.default"` the exchange sends
`"https://vault.azure.net/user_impersonation"` (Rust `trim_end_matches`
removes BOTH trailing `"/.default"` occurrences), whereas replacing only
the trailing `"/.default"` — the claim's transformation — would send
`"https://vault.azure.net/.default/user_impersonation"`. -/
theorem C8_double_default_counterexample :
    (get_token_with_refresh ⟨[], some "rt"⟩ 0
        "https://vault.azure.net/.default/.default"
        (.ok ⟨"t", some 10, none⟩)).sentScope =
      some "https://vault.azure.net/user_impersonation" ∧
    specConvertScope "https://vault.azure.net/.default/.default" =
      "https://vault.azure.net/.default/user_impersonation" ∧
    (get_token_with_refresh ⟨[], some "rt"⟩ 0
        "https://vault.azure.net/.default/.default"
        (.ok ⟨"t", some 10, none⟩)).sentScope ≠
      some (specConvertScope "https://vault.azure.net/.default/.default") := by
  refine ⟨by decide, by decide, by decide⟩

/-- C8 amended: the refresh-token exchange sends the scope unchanged when
it does not end in `"/.default"`; when the scope ends in `"/.default"` and
dropping that suffix leaves no further trailing `"/.default"`, the
outgoing scope is the scope with the trailing `"/.default"` replaced by
`"/user_impersonation"` (for repeated trailing `"/.default"` suffixes, ALL
of them are removed before appending); and on success the per-scope cache
entry is written under the ORIGINAL, untransformed scope. -/
theorem C8_refresh_scope_transform (st : CredState) (rt : String) (now : Nat)
    (scope : String) (body : TokenResponse)
    (hrt : st.refresh_token = some rt) :
    (strEndsWith scope "/.default" = false →
      (get_token_with_refresh st now scope (.ok body)).sentScope = some scope) ∧
    (strEndsWith scope "/.default" = true →
      strEndsWith (strDropRight scope "/.default".length) "/.default" = false →
      (get_token_with_refresh st now scope (.ok body)).sentScope =
        some (strDropRight scope "/.default".length ++ "/user_impersonation")) ∧
    assocGet (get_token_with_refresh st now scope (.ok body)).state.cached_tokens
        scope = some ⟨body.access_token, now + body.expires_in.getD 3600⟩ := by
  obtain ⟨atk, ei, rt2⟩ := body
  refine ⟨?_, ?_, ?_⟩
  · intro h
    simp [get_token_with_refresh, hrt, convertScope, h]
  · intro h1 h2
    simp [get_token_with_refresh, hrt, convertScope, h1,
      trimEndMatches_single scope h1 h2]
  · cases rt2 <;>
      simp [get_token_with_refresh, hrt, assocGet_assocInsert_self]

/-- C8 witness: the amended theorem applied to the Key Vault scope
`"https://vault.azure.net/.default"`. -/
theorem C8_refresh_scope_transform_witness :
    (get_token_with_refresh ⟨[], some "rt"⟩ 50 KEYVAULT_SCOPE
        (.ok ⟨"tok", some 3600, none⟩)).sentScope =
      some (strDropRight KEYVAULT_SCOPE "/.default".length ++ "/user_impersonation") ∧
    assocGet (get_token_with_refresh ⟨[], some "rt"⟩ 50 KEYVAULT_SCOPE
        (.ok ⟨"tok", some 3600, none⟩)).state.cached_tokens KEYVAULT_SCOPE =
      some ⟨"tok", 50 + 3600⟩ := by
  have h := C8_refresh_scope_transform ⟨[], some "rt"⟩ "rt" 50 KEYVAULT_SCOPE
    ⟨"tok", some 3600, none⟩ rfl
  exact ⟨h.2.1 (by decide) (by decide), h.2.2⟩

/-- Unfolding a successful Moka lookup into its entry and freshness. -/
theorem MokaCache.get_some_entFind {α : Type} (c : MokaCache α) (t : Nat)
    (k : String) (v : α) (h : c.get t k = some v) :
    ∃ t0, entFind c.entries k = some (v, t0) ∧ t < t0 + c.ttl := by
  unfold MokaCache.get at h
  cases hf : entFind c.entries k with
  | none => rw [hf] at h; simp at h
  | some p =>
    obtain ⟨v0, t0⟩ := p
    rw [hf] at h
    by_cases ht : t < t0 + c.ttl
    · simp only [ht, if_true] at h
      obtain rfl : v0 = v := by simpa using h
      exact ⟨t0, rfl, ht⟩
    · simp [ht] at h

/-- A fresh entry is returned by a Moka lookup. -/
theorem MokaCache.get_of_entFind {α : Type} (c : MokaCache α) (t : Nat)
    (k : String) (v : α) (t0 : Nat)
    (hf : entFind c.entries k = some (v, t0)) (ht : t < t0 + c.ttl) :
    c.get t k = some v := by
  unfold MokaCache.get
  rw [hf]
  simp [ht]

/-- The entry just inserted is found, with its insertion time. -/
theorem entFind_entInsert_self {α : Type} (l : List (String × α × Nat))
    (k : String) (v : α) (t : Nat) :
    entFind (entInsert l k v t) k = some (v, t) := by
  induction l with
  | nil => simp [entInsert, entFind]
  | cons hd tl ih =>
    obtain ⟨k0, v0, t0⟩ := hd
    by_cases h : k0 = k <;> simp [entInsert, entFind, h, ih]

/-- A Moka miss stays a miss at any later instant (entries only expire,
they never become visible again). -/
theorem MokaCache.get_none_mono {α : Type} (c : MokaCache α) (t1 t2 : Nat)
    (k : String) (h : c.get t1 k = none) (h12 : t1 ≤ t2) :
    c.get t2 k = none := by
  cases hg : c.get t2 k with
  | none => rfl
  | some v =>
    obtain ⟨t0, hf, ht⟩ := MokaCache.get_some_entFind _ _ _ _ hg
    have h1 : c.get t1 k = some v :=
      MokaCache.get_of_entFind _ _ _ _ _ hf (by omega)
    rw [h1] at h
    cases h

/-- `t` still lies within the TTL window of every entry stored for `k`. -/
def MokaCache.freshAt {α : Type} (m : MokaCache α) (k : String) (t : Nat) :
    Prop :=
  ∀ v t0, entFind m.entries k = some (v, t0) → t < t0 + m.ttl

/-- After a successful `get_subscriptions_or_load`, the subscriptions
category holds the returned value under `"subscriptions"`. -/
theorem subs_or_load_entry (c : AzureCache) (t1 : Nat)
    (f : Except String (List Subscription)) (v : List Subscription)
    (c1 : AzureCache) (b : Bool)
    (hfirst : AzureCache.get_subscriptions_or_load c t1 f = (.ok v, c1, b)) :
    ∃ t0, entFind c1.subscriptions.entries "subscriptions" = some (v, t0) := by
  unfold AzureCache.get_subscriptions_or_load at hfirst
  cases hget : c.subscriptions.get t1 "subscriptions" with
  | some cached =>
    rw [hget] at hfirst
    have hv : (Except.ok cached : Except String (List Subscription)) = .ok v :=
      congrArg Prod.fst hfirst
    have hv2 : cached = v := by simpa using hv
    have hc : c = c1 := congrArg (fun p => p.2.1) hfirst
    obtain ⟨t0, hf, -⟩ := MokaCache.get_some_entFind _ _ _ _ hget
    exact ⟨t0, by rw [← hc, hf, hv2]⟩
  | none =>
    rw [hget] at hfirst
    cases f with
    | error e =>
      have : (Except.error e : Except String (List Subscription)) = .ok v :=
        congrArg Prod.fst hfirst
      exact absurd this (by simp)
    | ok subs =>
      have hv : (Except.ok subs : Except String (List Subscription)) = .ok v :=
        congrArg Prod.fst hfirst
      have hv2 : subs = v := by simpa using hv
      have hc : ({ c with subscriptions :=
          c.subscriptions.insert t1 "subscriptions" subs } : AzureCache) = c1 :=
        congrArg (fun p => p.2.1) hfirst
      have heq : c1.subscriptions =
          c.subscriptions.insert t1 "subscriptions" subs := by rw [← hc]
      refine ⟨t1, ?_⟩
      rw [heq, ← hv2]
      exact entFind_entInsert_self _ _ _ _

/-- After a successful `get_secret_value_or_load`, the secret-values
category holds the returned bundle under the composite key. -/
theorem secretval_or_load_entry (c : AzureCache) (t1 : Nat)
    (vault_uri secret_name : String) (f : Except String SecretBundle)
    (v : SecretBundle) (c1 : AzureCache) (b : Bool)
    (hfirst : AzureCache.get_secret_value_or_load c t1 vault_uri secret_name f =
      (.ok v, c1, b)) :
    ∃ t0, entFind c1.secret_values.entries
      (AzureCache.secret_key vault_uri secret_name) = some (v, t0) := by
  unfold AzureCache.get_secret_value_or_load at hfirst
  cases hget : c.secret_values.get t1 (AzureCache.secret_key vault_uri secret_name) with
  | some cached =>
    rw [hget] at hfirst
    have hv : (Except.ok cached : Except String SecretBundle) = .ok v :=
      congrArg Prod.fst hfirst
    have hv2 : cached = v := by simpa using hv
    have hc : c = c1 := congrArg (fun p => p.2.1) hfirst
    obtain ⟨t0, hf, -⟩ := MokaCache.get_some_entFind _ _ _ _ hget
    exact ⟨t0, by rw [← hc, hf, hv2]⟩
  | none =>
    rw [hget] at hfirst
    cases f with
    | error e =>
      have : (Except.error e : Except String SecretBundle) = .ok v :=
        congrArg Prod.fst hfirst
      exact absurd this (by simp)
    | ok secret =>
      have hv : (Except.ok secret : Except String SecretBundle) = .ok v :=
        congrArg Prod.fst hfirst
      have hv2 : secret = v := by simpa using hv
      have hc : ({ c with
          secret_values :=
            c.secret_values.insert t1 (AzureCache.secret_key vault_uri secret_name) secret } :
          AzureCache) = c1 :=
        congrArg (fun p => p.2.1) hfirst
      have heq : c1.secret_values =
          c.secret_values.insert t1 (AzureCache.secret_key vault_uri secret_name) secret := by
        rw [← hc]
      refine ⟨t1, ?_⟩
      rw [heq, ← hv2]
      exact entFind_entInsert_self _ _ _ _

/-- A subscriptions lookup that hits returns the cached value without
invoking the loader. -/
theorem subs_second_call_hit (c1 : AzureCache) (t2 : Nat)
    (g : Except String (List Subscription)) (v : List Subscription)
    (h2 : c1.subscriptions.get t2 "subscriptions" = some v) :
    AzureCache.get_subscriptions_or_load c1 t2 g = (.ok v, c1, false) := by
  unfold AzureCache.get_subscriptions_or_load
  rw [h2]

/-- A secret-value lookup that hits returns the cached bundle without
invoking the loader. -/
theorem secretval_second_call_hit (c1 : AzureCache) (t2 : Nat)
    (vault_uri secret_name : String) (g : Except String SecretBundle)
    (v : SecretBundle)
    (h2 : c1.secret_values.get t2 (AzureCache.secret_key vault_uri secret_name) =
      some v) :
    AzureCache.get_secret_value_or_load c1 t2 vault_uri secret_name g =
      (.ok v, c1, false) := by
  unfold AzureCache.get_secret_value_or_load
  rw [h2]

/-- The preserved TTL of the subscriptions category across a load. -/
theorem subs_or_load_ttl (c : AzureCache) (t1 : Nat)
    (f : Except String (List Subscription)) (v : List Subscription)
    (c1 : AzureCache) (b : Bool)
    (hfirst : AzureCache.get_subscriptions_or_load c t1 f = (.ok v, c1, b)) :
    c1.subscriptions.ttl = c.subscriptions.ttl := by
  unfold AzureCache.get_subscriptions_or_load at hfirst
  cases hget : c.subscriptions.get t1 "subscriptions" with
  | some cached =>
    rw [hget] at hfirst
    have hc : c = c1 := congrArg (fun p => p.2.1) hfirst
    rw [← hc]
  | none =>
    rw [hget] at hfirst
    cases f with
    | error e =>
      have : (Except.error e : Except String (List Subscription)) = .ok v :=
        congrArg Prod.fst hfirst
      exact absurd this (by simp)
    | ok subs =>
      have hc : ({ c with subscriptions :=
          c.subscriptions.insert t1 "subscriptions" subs } : AzureCache) = c1 :=
        congrArg (fun p => p.2.1) hfirst
      rw [← hc]
      rfl

/-- C5: for the subscriptions and secret-value categories, if
`get_or_load` succeeds and is called again for the same key while the
cached entry is still within its TTL (and no invalidation intervened —
the second call operates directly on the state the first call produced),
the second call returns the cached value, leaves the cache unchanged and
does NOT invoke its loader; hence a counter-incrementing loader is
invoked at most once across the two sequential calls. -/
theorem C5_cache_hit_no_reload (c : AzureCache) (t1 t2 : Nat) :
    (∀ f g v c1 b,
      AzureCache.get_subscriptions_or_load c t1 f = (.ok v, c1, b) →
      MokaCache.freshAt c1.subscriptions "subscriptions" t2 →
      AzureCache.get_subscriptions_or_load c1 t2 g = (.ok v, c1, false)) ∧
    (∀ vault_uri secret_name f g v c1 b,
      AzureCache.get_secret_value_or_load c t1 vault_uri secret_name f =
        (.ok v, c1, b) →
      MokaCache.freshAt c1.secret_values
        (AzureCache.secret_key vault_uri secret_name) t2 →
      AzureCache.get_secret_value_or_load c1 t2 vault_uri secret_name g =
        (.ok v, c1, false)) := by
  constructor
  · intro f g v c1 b hfirst hfresh
    obtain ⟨t0, hf⟩ := subs_or_load_entry c t1 f v c1 b hfirst
    exact subs_second_call_hit c1 t2 g v
      (MokaCache.get_of_entFind _ _ _ _ _ hf (hfresh _ _ hf))
  · intro vault_uri secret_name f g v c1 b hfirst hfresh
    obtain ⟨t0, hf⟩ := secretval_or_load_entry c t1 vault_uri secret_name f v c1 b hfirst
    exact secretval_second_call_hit c1 t2 vault_uri secret_name g v
      (MokaCache.get_of_entFind _ _ _ _ _ hf (hfresh _ _ hf))

/-- C5 witness: on an initially empty cache, a first successful load at
time 0 followed by a second call at time 5 (within the 600 s subscriptions
TTL) returns the cached list without invoking the second loader. -/
theorem C5_cache_hit_no_reload_witness :
    AzureCache.get_subscriptions_or_load
      (AzureCache.get_subscriptions_or_load AzureCache.new 0
        (.ok [⟨"/subscriptions/a", "a", "Sub A"⟩])).2.1 5
      (.error "loader must not run") =
    (.ok [⟨"/subscriptions/a", "a", "Sub A"⟩],
     (AzureCache.get_subscriptions_or_load AzureCache.new 0
        (.ok [⟨"/subscriptions/a", "a", "Sub A"⟩])).2.1, false) := by
  refine (C5_cache_hit_no_reload AzureCache.new 0 5).1
    (.ok [⟨"/subscriptions/a", "a", "Sub A"⟩]) _ _ _
    (AzureCache.get_subscriptions_or_load AzureCache.new 0
      (.ok [⟨"/subscriptions/a", "a", "Sub A"⟩])).2.2 rfl ?_
  intro v t0 h
  have e : (some ([⟨"/subscriptions/a", "a", "Sub A"⟩], 0) :
      Option (List Subscription × Nat)) = some (v, t0) := Eq.trans rfl h
  obtain ⟨-, rfl⟩ : [(⟨"/subscriptions/a", "a", "Sub A"⟩ : Subscription)] = v ∧ 0 = t0 := by
    simpa using e
  decide

/-- C6: for the subscriptions and secrets-list categories, when the cache
misses and the loader fails, `get_or_load` propagates the loader's error
and stores nothing (the cache value is returned unchanged), and a
subsequent call at any later time invokes its loader again — errors are
never cached. -/
theorem C6_error_not_cached (c : AzureCache) (t1 t2 : Nat) (e : String)
    (h12 : t1 ≤ t2) :
    (c.subscriptions.get t1 "subscriptions" = none →
      AzureCache.get_subscriptions_or_load c t1 (.error e) =
        (.error e, c, true) ∧
      ∀ g, (AzureCache.get_subscriptions_or_load c t2 g).2.2 = true) ∧
    (∀ vault_uri, c.secrets_list.get t1 vault_uri = none →
      AzureCache.get_secrets_list_or_load c t1 vault_uri (.error e) =
        (.error e, c, true) ∧
      ∀ g, (AzureCache.get_secrets_list_or_load c t2 vault_uri g).2.2 = true) := by
  constructor
  · intro hmiss
    constructor
    · unfold AzureCache.get_subscriptions_or_load
      rw [hmiss]
    · intro g
      have hmiss2 := MokaCache.get_none_mono _ t1 t2 _ hmiss h12
      unfold AzureCache.get_subscriptions_or_load
      rw [hmiss2]
      cases g <;> rfl
  · intro vault_uri hmiss
    constructor
    · unfold AzureCache.get_secrets_list_or_load
      rw [hmiss]
    · intro g
      have hmiss2 := MokaCache.get_none_mono _ t1 t2 _ hmiss h12
      unfold AzureCache.get_secrets_list_or_load
      rw [hmiss2]
      cases g <;> rfl

/-- C6 witness: on the empty cache, a failing loader at time 0 propagates
its error and leaves the cache empty, and a call at time 3 still invokes
its loader. -/
theorem C6_error_not_cached_witness :
    AzureCache.get_subscriptions_or_load AzureCache.new 0 (.error "boom") =
      (.error "boom", AzureCache.new, true) ∧
    (AzureCache.get_subscriptions_or_load AzureCache.new 3 (.ok [])).2.2 = true := by
  have h := (C6_error_not_cached AzureCache.new 0 3 "boom" (by decide)).1 rfl
  exact ⟨h.1, h.2 (.ok [])⟩

/-! ### Polling-loop step equations -/

/-- When the attempt budget is already exhausted, the loop returns the
timeout error immediately and performs no POST and no sleep. -/
theorem pollLoop_timeout_eq (interval now : Nat) (st : CredState)
    (attempts : Nat) (responses : List PollResponse)
    (ha : MAX_POLL_ATTEMPTS ≤ attempts) :
    pollLoop interval now st attempts responses =
      ⟨.err "Authentication timed out", st, [], 0⟩ := by
  unfold pollLoop
  rw [if_pos ha]

/-- An `authorization_pending` answer costs one POST and one sleep of
`interval`, and increments the attempt counter. -/
theorem pollLoop_pending_eq (interval now : Nat) (st : CredState)
    (attempts : Nat) (rest : List PollResponse)
    (ha : attempts < MAX_POLL_ATTEMPTS) :
    pollLoop interval now st attempts (.failure "authorization_pending" :: rest) =
      ⟨(pollLoop interval now st (attempts + 1) rest).outcome,
       (pollLoop interval now st (attempts + 1) rest).state,
       interval :: (pollLoop interval now st (attempts + 1) rest).sleeps,
       (pollLoop interval now st (attempts + 1) rest).posts + 1⟩ := by
  conv_lhs => unfold pollLoop
  rw [if_neg (Nat.not_le.mpr ha)]
  simp

/-- A `slow_down` answer costs one POST and one sleep of
`interval + POLL_SLOWDOWN_SECONDS`, and does NOT increment the attempt
counter. -/
theorem pollLoop_slowdown_eq (interval now : Nat) (st : CredState)
    (attempts : Nat) (rest : List PollResponse)
    (ha : attempts < MAX_POLL_ATTEMPTS) :
    pollLoop interval now st attempts (.failure "slow_down" :: rest) =
      ⟨(pollLoop interval now st attempts rest).outcome,
       (pollLoop interval now st attempts rest).state,
       (interval + POLL_SLOWDOWN_SECONDS) :: (pollLoop interval now st attempts rest).sleeps,
       (pollLoop interval now st attempts rest).posts + 1⟩ := by
  conv_lhs => unfold pollLoop
  rw [if_neg (Nat.not_le.mpr ha)]
  simp

/-- Any other error code aborts the loop immediately with that code, after
the single POST that produced it. -/
theorem pollLoop_othercode_eq (interval now : Nat) (st : CredState)
    (attempts : Nat) (code : String) (rest : List PollResponse)
    (ha : attempts < MAX_POLL_ATTEMPTS)
    (h1 : code ≠ "authorization_pending") (h2 : code ≠ "slow_down") :
    pollLoop interval now st attempts (.failure code :: rest) =
      ⟨.err ("Authentication failed: " ++ code), st, [], 1⟩ := by
  conv_lhs => unfold pollLoop
  rw [if_neg (Nat.not_le.mpr ha)]
  simp [h1, h2]

/-- A success answer ends the loop: one POST, no sleep, and the token is
stamped `now + expires_in` (default 3600). -/
theorem pollLoop_success_proj (interval now : Nat) (st : CredState)
    (attempts : Nat) (body : TokenResponse) (rest : List PollResponse)
    (ha : attempts < MAX_POLL_ATTEMPTS) :
    (pollLoop interval now st attempts (.success body :: rest)).outcome =
      .tok ⟨body.access_token, now + body.expires_in.getD 3600⟩ ∧
    (pollLoop interval now st attempts (.success body :: rest)).sleeps = [] ∧
    (pollLoop interval now st attempts (.success body :: rest)).posts = 1 := by
  unfold pollLoop
  rw [if_neg (Nat.not_le.mpr ha)]
  exact ⟨rfl, rfl, rfl⟩

/-- A run answered `authorization_pending` N times and then success:
exactly N sleeps of `interval`, N+1 POSTs, and the token is returned. -/
theorem pollLoop_pending_then_success (interval now : Nat) (st : CredState)
    (body : TokenResponse) :
    ∀ N attempts, attempts + N < MAX_POLL_ATTEMPTS →
    (pollLoop interval now st attempts
      (List.replicate N (.failure "authorization_pending") ++ [.success body])).sleeps =
        List.replicate N interval ∧
    (pollLoop interval now st attempts
      (List.replicate N (.failure "authorization_pending") ++ [.success body])).posts =
        N + 1 ∧
    (pollLoop interval now st attempts
      (List.replicate N (.failure "authorization_pending") ++ [.success body])).outcome =
        .tok ⟨body.access_token, now + body.expires_in.getD 3600⟩ := by
  intro N
  induction N with
  | zero =>
    intro attempts h
    have hp := pollLoop_success_proj interval now st attempts body []
      (by omega)
    simpa using ⟨hp.2.1, hp.2.2, hp.1⟩
  | succ n ih =>
    intro attempts h
    have ha : attempts < MAX_POLL_ATTEMPTS := by omega
    rw [List.replicate_succ, List.cons_append,
      pollLoop_pending_eq interval now st attempts _ ha]
    obtain ⟨h1, h2, h3⟩ := ih (attempts + 1) (by omega)
    exact ⟨by simp [h1, List.replicate_succ], by simp [h2], by simp [h3]⟩

/-- C3: starting the initial exchange loop with N < 60 pending answers
followed by a success performs exactly N sleeps, each of the session's
instructed interval, and returns the token (stamped `now + expires_in`)
on attempt N+1; a `slow_down` answer sleeps `interval +
POLL_SLOWDOWN_SECONDS` (fixed backoff constant, not exponential) before
retrying without consuming attempt budget; any other error code aborts
immediately with that code. -/
theorem C3_polling_trace (interval now : Nat) (st : CredState) :
    (∀ N body, N < MAX_POLL_ATTEMPTS →
      (pollLoop interval now st 0
        (List.replicate N (.failure "authorization_pending") ++ [.success body])).sleeps =
          List.replicate N interval ∧
      (pollLoop interval now st 0
        (List.replicate N (.failure "authorization_pending") ++ [.success body])).posts =
          N + 1 ∧
      (pollLoop interval now st 0
        (List.replicate N (.failure "authorization_pending") ++ [.success body])).outcome =
          .tok ⟨body.access_token, now + body.expires_in.getD 3600⟩) ∧
    (∀ attempts rest, attempts < MAX_POLL_ATTEMPTS →
      pollLoop interval now st attempts (.failure "slow_down" :: rest) =
        ⟨(pollLoop interval now st attempts rest).outcome,
         (pollLoop interval now st attempts rest).state,
         (interval + POLL_SLOWDOWN_SECONDS) :: (pollLoop interval now st attempts rest).sleeps,
         (pollLoop interval now st attempts rest).posts + 1⟩) ∧
    (∀ code rest attempts, attempts < MAX_POLL_ATTEMPTS →
      code ≠ "authorization_pending" → code ≠ "slow_down" →
      pollLoop interval now st attempts (.failure code :: rest) =
        ⟨.err ("Authentication failed: " ++ code), st, [], 1⟩) := by
  refine ⟨?_, ?_, ?_⟩
  · intro N body hN
    exact pollLoop_pending_then_success interval now st body N 0 (by omega)
  · intro attempts rest ha
    exact pollLoop_slowdown_eq interval now st attempts rest ha
  · intro code rest attempts ha h1 h2
    exact pollLoop_othercode_eq interval now st attempts code rest ha h1 h2

/-- C3 witness: three pending answers then success, interval 5, from an
empty credential state: three sleeps of 5 seconds, four POSTs, token
returned with expiry 100 + 3600. -/
theorem C3_polling_trace_witness :
    (pollLoop 5 100 ⟨[], none⟩ 0
      (List.replicate 3 (.failure "authorization_pending") ++
        [.success ⟨"tok", some 3600, some "rt"⟩])).sleeps = [5, 5, 5] ∧
    (pollLoop 5 100 ⟨[], none⟩ 0
      (List.replicate 3 (.failure "authorization_pending") ++
        [.success ⟨"tok", some 3600, some "rt"⟩])).posts = 4 ∧
    (pollLoop 5 100 ⟨[], none⟩ 0
      (List.replicate 3 (.failure "authorization_pending") ++
        [.success ⟨"tok", some 3600, some "rt"⟩])).outcome = .tok ⟨"tok", 3700⟩ := by
  have h := (C3_polling_trace 5 100 ⟨[], none⟩).1 3 ⟨"tok", some 3600, some "rt"⟩
    (by decide)
  exact ⟨by rw [h.1]; rfl, by rw [h.2.1], by rw [h.2.2]; rfl⟩

/-- Number of `slow_down` answers in a response stream. -/
def countSlowDown : List PollResponse → Nat
  | [] => 0
  | .failure c :: rest => (if c = "slow_down" then 1 else 0) + countSlowDown rest
  | .success _ :: rest => countSlowDown rest

/-- Bound on the POSTs of a loop run: attempt budget plus the `slow_down`
answers plus the final answer. -/
theorem pollLoop_posts_le (interval now : Nat) (st : CredState) :
    ∀ (responses : List PollResponse) (attempts : Nat),
      (pollLoop interval now st attempts responses).posts ≤
        (MAX_POLL_ATTEMPTS - attempts) + countSlowDown responses + 1 := by
  intro responses
  induction responses with
  | nil =>
    intro attempts
    by_cases ha : MAX_POLL_ATTEMPTS ≤ attempts
    · rw [pollLoop_timeout_eq interval now st attempts [] ha]
      exact Nat.zero_le _
    · have : pollLoop interval now st attempts [] = ⟨.outOfResponses, st, [], 0⟩ := by
        unfold pollLoop
        rw [if_neg ha]
      rw [this]
      exact Nat.zero_le _
  | cons r rest ih =>
    intro attempts
    by_cases ha : MAX_POLL_ATTEMPTS ≤ attempts
    · rw [pollLoop_timeout_eq interval now st attempts (r :: rest) ha]
      exact Nat.zero_le _
    · have ha' : attempts < MAX_POLL_ATTEMPTS := Nat.not_le.mp ha
      cases r with
      | success body =>
        have hp := (pollLoop_success_proj interval now st attempts body rest ha').2.2
        rw [hp]
        simp [countSlowDown]
      | failure code =>
        by_cases hc1 : code = "authorization_pending"
        · subst hc1
          rw [pollLoop_pending_eq interval now st attempts rest ha']
          have hih := ih (attempts + 1)
          simp [countSlowDown]
          omega
        · by_cases hc2 : code = "slow_down"
          · subst hc2
            rw [pollLoop_slowdown_eq interval now st attempts rest ha']
            have hih := ih attempts
            simp [countSlowDown]
            omega
          · rw [pollLoop_othercode_eq interval now st attempts code rest ha' hc1 hc2]
            simp only [countSlowDown, if_neg hc2]
            omega

/-- C2 amended: the attempt budget counts only `authorization_pending`
answers — once `attempts` reaches MAX_POLL_ATTEMPTS the loop returns the
timeout error and performs no further POST; but `slow_down` answers do not
consume budget, so the total number of POSTs is bounded only by
`MAX_POLL_ATTEMPTS - attempts + (number of slow_down answers) + 1`, not by
MAX_POLL_ATTEMPTS alone. -/
theorem C2_post_bound (interval now : Nat) (st : CredState)
    (attempts : Nat) (responses : List PollResponse) :
    ((pollLoop interval now st attempts responses).posts ≤
      (MAX_POLL_ATTEMPTS - attempts) + countSlowDown responses + 1) ∧
    (MAX_POLL_ATTEMPTS ≤ attempts →
      pollLoop interval now st attempts responses =
        ⟨.err "Authentication timed out", st, [], 0⟩) :=
  ⟨pollLoop_posts_le interval now st responses attempts,
   fun ha => pollLoop_timeout_eq interval now st attempts responses ha⟩

/-- C2 witness: the amended theorem at a concrete run — at the budget
boundary the loop returns the timeout error with zero POSTs, and the
bound holds for a short pending run. -/
theorem C2_post_bound_witness :
    pollLoop 5 0 ⟨[], none⟩ MAX_POLL_ATTEMPTS
        [.success ⟨"tok", some 3600, none⟩] =
      ⟨.err "Authentication timed out", ⟨[], none⟩, [], 0⟩ ∧
    (pollLoop 5 0 ⟨[], none⟩ 0
        (List.replicate 2 (.failure "authorization_pending") ++
          [.success ⟨"tok", some 3600, none⟩])).posts ≤
      (MAX_POLL_ATTEMPTS - 0) + countSlowDown
        (List.replicate 2 (.failure "authorization_pending") ++
          [.success ⟨"tok", some 3600, none⟩]) + 1 :=
  ⟨(C2_post_bound 5 0 ⟨[], none⟩ MAX_POLL_ATTEMPTS
      [.success ⟨"tok", some 3600, none⟩]).2 (Nat.le_refl _),
   (C2_post_bound 5 0 ⟨[], none⟩ 0
      (List.replicate 2 (.failure "authorization_pending") ++
        [.success ⟨"tok", some 3600, none⟩])).1⟩

/-- C2 counterexample: sixty `slow_down` answers followed by success make
the loop POST 61 times — exceeding MAX_POLL_ATTEMPTS = 60 — and return the
token rather than a timeout, because `slow_down` does not increment the
attempt counter; the claim's bound of 60 POSTs regardless of the
pending/slow_down sequence is therefore false. -/
theorem C2_unbounded_posts_counterexample :
    (pollLoop 5 0 ⟨[], none⟩ 0
      (List.replicate 60 (.failure "slow_down") ++
        [.success ⟨"tok", some 3600, none⟩])).posts = 61 ∧
    MAX_POLL_ATTEMPTS = 60 ∧
    (pollLoop 5 0 ⟨[], none⟩ 0
      (List.replicate 60 (.failure "slow_down") ++
        [.success ⟨"tok", some 3600, none⟩])).outcome = .tok ⟨"tok", 3600⟩ := by
  refine ⟨by decide, rfl, by decide⟩

/-! ### Token freshness -/

/-- A token-endpoint success body whose `expires_in`, when present, is
positive (Azure always grants a positive lifetime; the code itself does
not enforce this). -/
def TokenResponse.positiveExpiry (t : TokenResponse) : Prop :=
  ∀ n, t.expires_in = some n → 0 < n

/-- Positivity of the refresh-exchange response, vacuous on failures. -/
def RefreshResponse.positiveExpiry : RefreshResponse → Prop
  | .ok body => body.positiveExpiry
  | .errBody _ => True

/-- Positivity of a polling answer, vacuous on failures. -/
def PollResponse.positiveExpiry : PollResponse → Prop
  | .success body => body.positiveExpiry
  | .failure _ => True

/-- Any token the polling loop produces is stamped strictly after `now`
when the success body's `expires_in` is positive (or absent). -/
theorem pollLoop_tok_fresh (interval now : Nat) (st : CredState) :
    ∀ (responses : List PollResponse) (attempts : Nat) (t : AccessToken),
      (∀ r ∈ responses, PollResponse.positiveExpiry r) →
      (pollLoop interval now st attempts responses).outcome = .tok t →
      now < t.expires_on := by
  intro responses
  induction responses with
  | nil =>
    intro attempts t _ h
    by_cases ha : MAX_POLL_ATTEMPTS ≤ attempts
    · rw [pollLoop_timeout_eq interval now st attempts [] ha] at h
      simp at h
    · have heq : pollLoop interval now st attempts [] =
          ⟨.outOfResponses, st, [], 0⟩ := by
        unfold pollLoop
        rw [if_neg ha]
      rw [heq] at h
      simp at h
  | cons r rest ih =>
    intro attempts t hpos h
    by_cases ha : MAX_POLL_ATTEMPTS ≤ attempts
    · rw [pollLoop_timeout_eq interval now st attempts (r :: rest) ha] at h
      simp at h
    · have ha' : attempts < MAX_POLL_ATTEMPTS := Nat.not_le.mp ha
      cases r with
      | success body =>
        rw [(pollLoop_success_proj interval now st attempts body rest ha').1] at h
        have hb : (⟨body.access_token, now + body.expires_in.getD 3600⟩ :
            AccessToken) = t := by
          simpa using h
        rw [← hb]
        have hbody : body.positiveExpiry := hpos (.success body) (by simp)
        cases hei : body.expires_in with
        | none => simp [hei]
        | some n =>
          have hn := hbody n hei
          simp only [hei, Option.getD_some]
          omega
      | failure code =>
        by_cases hc1 : code = "authorization_pending"
        · subst hc1
          rw [pollLoop_pending_eq interval now st attempts rest ha'] at h
          simp only at h
          exact ih (attempts + 1) t (fun r hr => hpos r (by simp [hr])) h
        · by_cases hc2 : code = "slow_down"
          · subst hc2
            rw [pollLoop_slowdown_eq interval now st attempts rest ha'] at h
            simp only at h
            exact ih attempts t (fun r hr => hpos r (by simp [hr])) h
          · rw [pollLoop_othercode_eq interval now st attempts code rest
              ha' hc1 hc2] at h
            simp at h

/-- Any token the refresh exchange returns is stamped strictly after `now`
when the response's `expires_in` is positive (or absent). -/
theorem refresh_token_fresh (st : CredState) (now : Nat) (scope : String)
    (resp : RefreshResponse) (hr : resp.positiveExpiry) :
    ∀ t, (get_token_with_refresh st now scope resp).result = .ok t →
      now < t.expires_on := by
  intro t h
  unfold get_token_with_refresh at h
  cases hrt : st.refresh_token with
  | none => rw [hrt] at h; simp at h
  | some rt0 =>
    rw [hrt] at h
    cases resp with
    | ok body =>
      simp only at h
      have hb : (⟨body.access_token, now + body.expires_in.getD 3600⟩ :
          AccessToken) = t := by
        simpa using h
      rw [← hb]
      cases hei : body.expires_in with
      | none => simp [hei]
      | some n =>
        have hn := hr n hei
        simp only [hei, Option.getD_some]
        omega
    | errBody text =>
      simp only at h
      split at h <;> simp at h

/-- Any token `getTokenMiss` (the cache-miss continuation of `get_token`)
returns is stamped strictly after `now`. -/
theorem getTokenMiss_fresh (st : CredState) (deviceState : Option DeviceCodeState)
    (now : Nat) (refreshResp : RefreshResponse)
    (pollResponses : List PollResponse) (scope : String)
    (hr : refreshResp.positiveExpiry)
    (hp : ∀ r ∈ pollResponses, PollResponse.positiveExpiry r) :
    ∀ t, (getTokenMiss st deviceState now refreshResp pollResponses scope).result =
      .ok t → now < t.expires_on := by
  intro t h
  unfold getTokenMiss at h
  cases hrt : st.refresh_token with
  | some rt0 =>
    rw [hrt] at h
    simp only at h
    exact refresh_token_fresh st now scope refreshResp hr t h
  | none =>
    rw [hrt] at h
    cases deviceState with
    | none => simp at h
    | some ds =>
      simp only at h
      cases ho : (pollLoop ds.interval now st 0 pollResponses).outcome with
      | tok t0 =>
        rw [ho] at h
        have ht0 : t0 = t := by simpa using h
        rw [← ht0]
        exact pollLoop_tok_fresh ds.interval now st pollResponses 0 t0 hp ho
      | err m => rw [ho] at h; simp at h
      | outOfResponses => rw [ho] at h; simp at h

/-- C1 amended: assuming every successful exchange response carries a
positive `expires_in` (or none, defaulting to 3600), a `get_token` call of
the device-code credential either errs or returns a token whose
`expires_at` is strictly later than `now` — the per-scope cache yields a
token only if `expires_on > now`, and a fresh exchange stamps
`now + expires_in`; consequently `get_token_for_scope` of the global
provider, backed by this credential, returns the secret of such a strictly
unexpired token. Without the positivity assumption the guarantee fails
(a response with `expires_in = 0` yields a token already expired at
return time). -/
theorem C1_token_freshness (st : CredState) (deviceState : Option DeviceCodeState)
    (now : Nat) (refreshResp : RefreshResponse)
    (pollResponses : List PollResponse) (scope : String)
    (hr : refreshResp.positiveExpiry)
    (hp : ∀ r ∈ pollResponses, PollResponse.positiveExpiry r) :
    (∀ t, (InteractiveDeviceCodeCredential.get_token st deviceState now
        refreshResp pollResponses scope).result = .ok t →
      now < t.expires_on) ∧
    (∀ s, GlobalTokenProvider.get_token_for_scope (some st) deviceState now
        refreshResp pollResponses scope = .ok s →
      ∃ t, (InteractiveDeviceCodeCredential.get_token st deviceState now
          refreshResp pollResponses scope).result = .ok t ∧
        s = t.secret ∧ now < t.expires_on) := by
  have hmain : ∀ t, (InteractiveDeviceCodeCredential.get_token st deviceState now
      refreshResp pollResponses scope).result = .ok t → now < t.expires_on := by
    intro t h
    unfold InteractiveDeviceCodeCredential.get_token at h
    cases hc : assocGet st.cached_tokens scope with
    | some token =>
      rw [hc] at h
      simp only at h
      by_cases hfresh : now < token.expires_on
      · rw [if_pos hfresh] at h
        have : token = t := by simpa using h
        rw [← this]
        exact hfresh
      · rw [if_neg hfresh] at h
        exact getTokenMiss_fresh st deviceState now refreshResp pollResponses
          scope hr hp t h
    | none =>
      rw [hc] at h
      exact getTokenMiss_fresh st deviceState now refreshResp pollResponses
        scope hr hp t h
  refine ⟨hmain, ?_⟩
  intro s h
  unfold GlobalTokenProvider.get_token_for_scope at h
  simp only at h
  cases hres : (InteractiveDeviceCodeCredential.get_token st deviceState now
      refreshResp pollResponses scope).result with
  | ok token =>
    rw [hres] at h
    have hs : token.secret = s := by simpa using h
    exact ⟨token, rfl, hs.symm, hmain token hres⟩
  | error e =>
    rw [hres] at h
    simp at h

/-- C1 counterexample: a refresh-exchange response with `expires_in = 0`
makes `get_token` return a token stamped `expires_on = now` (here 100) —
at, not strictly later than, the current time — so the unconditioned claim
is false. -/
theorem C1_expired_token_counterexample :
    (InteractiveDeviceCodeCredential.get_token ⟨[], some "rt"⟩ none 100
      (.ok ⟨"t", some 0, none⟩) [] KEYVAULT_SCOPE).result =
      .ok ⟨"t", 100⟩ ∧ ¬ (100 < (100 : Nat)) :=
  ⟨by decide, by decide⟩

/-- C1 witness: the amended theorem at a concrete refresh exchange with
`expires_in = 60` at `now = 100`: the returned token expires at 160,
strictly later than 100. -/
theorem C1_token_freshness_witness :
    (InteractiveDeviceCodeCredential.get_token ⟨[], some "rt"⟩ none 100
      (.ok ⟨"t", some 60, none⟩) [] KEYVAULT_SCOPE).result =
      .ok ⟨"t", 160⟩ ∧
    100 < (160 : Nat) := by
  have hr : RefreshResponse.positiveExpiry (.ok ⟨"t", some 60, none⟩) := by
    intro n hn
    injection hn with h2
    omega
  have hp : ∀ r ∈ ([] : List PollResponse), PollResponse.positiveExpiry r := by
    intro r hr2
    exact absurd hr2 (List.not_mem_nil r)
  have h := (C1_token_freshness ⟨[], some "rt"⟩ none 100
    (.ok ⟨"t", some 60, none⟩) [] KEYVAULT_SCOPE hr hp).1 ⟨"t", 160⟩ (by decide)
  exact ⟨by decide, h⟩

/-- C9: user-info extraction never errs on malformed tokens — a token
without exactly three dot-separated segments yields `(None, None)`; so
does a middle segment that neither base64 engine decodes or whose bytes do
not parse as claims; when claims do parse, the email is the first present
value among `upn`, `email`, `unique_name`, `preferred_username` in that
order, together with the `name` claim; and when neither an email nor a
name was obtained, the stored user info is the account-type placeholder
pair rather than a failure. -/
theorem C9_user_info_extraction
    (decodeUrlSafeB64 decodeStdB64 : String → Option (List Nat))
    (parseClaims : List Nat → Option TokenClaims) (token : String) :
    ((splitDot token.data).length ≠ 3 →
      extract_user_info_from_token decodeUrlSafeB64 decodeStdB64 parseClaims
        token = .ok (none, none)) ∧
    (∀ payload, (splitDot token.data).length = 3 →
      payload = ((splitDot token.data).map String.mk).getD 1 "" →
      ((decodeUrlSafeB64 payload = none → decodeStdB64 payload = none →
        extract_user_info_from_token decodeUrlSafeB64 decodeStdB64 parseClaims
          token = .ok (none, none)) ∧
       (∀ d, (decodeUrlSafeB64 payload = some d ∨
           (decodeUrlSafeB64 payload = none ∧ decodeStdB64 payload = some d)) →
         (parseClaims d = none →
           extract_user_info_from_token decodeUrlSafeB64 decodeStdB64 parseClaims
             token = .ok (none, none)) ∧
         (∀ claims, parseClaims d = some claims →
           extract_user_info_from_token decodeUrlSafeB64 decodeStdB64 parseClaims
             token = .ok
               (((claims.upn.or claims.email).or claims.unique_name).or
                  claims.preferred_username,
                claims.name))))) ∧
    store_user_info none none = ("Microsoft Account", some "Personal Account") := by
  refine ⟨?_, ?_, rfl⟩
  · intro hlen
    simp [extract_user_info_from_token, hlen]
  · intro payload hlen hpay
    have hcond : ¬ (((splitDot token.data).map String.mk).length ≠ 3) := by
      simp [hlen]
    constructor
    · intro h1 h2
      unfold extract_user_info_from_token
      rw [if_neg hcond, ← hpay]
      dsimp only
      rw [h1, h2]
    · intro d hd
      constructor
      · intro hparse
        rcases hd with hd | ⟨hd1, hd2⟩
        · unfold extract_user_info_from_token
          rw [if_neg hcond, ← hpay]
          dsimp only
          rw [hd]
          show (match parseClaims d with
                | none => (Except.ok (none, none) :
                    Except String (Option String × Option String))
                | some claims =>
                  Except.ok
                    (((claims.upn.or claims.email).or claims.unique_name).or
                       claims.preferred_username,
                     claims.name)) = Except.ok (none, none)
          rw [hparse]
        · unfold extract_user_info_from_token
          rw [if_neg hcond, ← hpay]
          dsimp only
          rw [hd1, hd2]
          show (match parseClaims d with
                | none => (Except.ok (none, none) :
                    Except String (Option String × Option String))
                | some claims =>
                  Except.ok
                    (((claims.upn.or claims.email).or claims.unique_name).or
                       claims.preferred_username,
                     claims.name)) = Except.ok (none, none)
          rw [hparse]
      · intro claims hparse
        rcases hd with hd | ⟨hd1, hd2⟩
        · unfold extract_user_info_from_token
          rw [if_neg hcond, ← hpay]
          dsimp only
          rw [hd]
          show (match parseClaims d with
                | none => (Except.ok (none, none) :
                    Except String (Option String × Option String))
                | some claims =>
                  Except.ok
                    (((claims.upn.or claims.email).or claims.unique_name).or
                       claims.preferred_username,
                     claims.name)) =
            Except.ok
              (((claims.upn.or claims.email).or claims.unique_name).or
                 claims.preferred_username,
               claims.name)
          rw [hparse]
        · unfold extract_user_info_from_token
          rw [if_neg hcond, ← hpay]
          dsimp only
          rw [hd1, hd2]
          show (match parseClaims d with
                | none => (Except.ok (none, none) :
                    Except String (Option String × Option String))
                | some claims =>
                  Except.ok
                    (((claims.upn.or claims.email).or claims.unique_name).or
                       claims.preferred_username,
                     claims.name)) =
            Except.ok
              (((claims.upn.or claims.email).or claims.unique_name).or
                 claims.preferred_username,
               claims.name)
          rw [hparse]

/-- C9 witness: a three-segment token whose payload neither engine decodes
yields `(None, None)` rather than an error, and the placeholder is stored
when nothing was derived. -/
theorem C9_user_info_extraction_witness :
    extract_user_info_from_token (fun _ => none) (fun _ => none)
      (fun _ => none) "h.p.s" = .ok (none, none) ∧
    store_user_info none none = ("Microsoft Account", some "Personal Account") := by
  have h := C9_user_info_extraction (fun _ => none) (fun _ => none)
    (fun _ => none) "h.p.s"
  exact ⟨(h.2.1 "p" (by decide) (by decide)).1 rfl rfl, h.2.2⟩
